import Mathlib

/-!
Verification of the discord chess tracker's state-management layer.

The repository's own logic (`chess_game.py`, `chess_cog.py`, `chess_bot.py`)
is embedded shallowly.  The external chess rules engine (the python-chess
library) is abstracted as a structure of operations `Engine P M` over an
opaque position type `P` and move type `M`; the repository code only ever
threads positions and moves through these operations, so every claim about
the repository's code is stated for an arbitrary engine.  The bitboard-level
castling-rights helpers that `chess_game.py` reaches into directly are given
a separate concrete bitboard model (`CastlingBoard`), with the library
functions they call modelled from the python-chess sources.
-/

namespace ChessTracker

/-- A discord user as the rosters store them.  discord.py compares members by
their identifier, so roster membership tests below use id equality. -/
structure Player where
  id : Nat
  name : String
deriving DecidableEq

/-- The external python-chess rules engine, abstracted: an opaque position
type `P`, a move type `M`, and the operations `chess_game.py` calls.
`initPos` abstracts `chess.Board()` (argument `false`) and the randomized
`chess.Board.from_chess960_pos(...)` start including the constructor's
castling set-up (argument `true`). -/
structure Engine (P M : Type) where
  applyMove : P → M → P
  parseSan : P → String → Option M
  moveFromUci : String → Option M
  legalMoves : P → List M
  sanOf : P → M → String
  fenOf : P → String
  fenParse : String → Option P
  turnOf : P → Bool
  initPos : Bool → P

/-- A python-chess `Board` as the repository uses it: the position it was
last (re)set to (`chess.Board()` or `set_fen`) plus the stack of pushed
moves.  The current position is the fold of the stack over the base. -/
structure Board (P M : Type) where
  base : P
  stack : List M
deriving DecidableEq

/-- The current position of a board: the base position with every stacked
move applied in order. -/
def Board.position {P M : Type} (E : Engine P M) (b : Board P M) : P :=
  b.stack.foldl E.applyMove b.base

/-- The board `pop` operation: reverts the last pushed move, or fails
(python raises `IndexError`) when the move stack is empty. -/
def Board.popMove {P M : Type} (b : Board P M) : Option (Board P M) :=
  if b.stack.isEmpty then none
  else some { b with stack := b.stack.dropLast }

/-- `board.set_fen(s)`: parses the FEN and, on success, resets the board to
that position with an empty move stack; on failure the python call raises. -/
def Board.setFen {P M : Type} (E : Engine P M) (b : Board P M) (s : String) :
    Option (Board P M) :=
  match E.fenParse s with
  | none => none
  | some p => some { b with base := p, stack := [] }

/-- The `ChessGame` record of `chess_game.py`, field for field. -/
structure Game (P M : Type) where
  board : Board P M
  white_players : List Player
  black_players : List Player
  move_history : List String
  completed : Bool
  timestamp : Option String
  is_960 : Bool
  starting_fen : String
  white_player_ids : List Nat
  black_player_ids : List Nat
deriving DecidableEq

/-- ASCII lower-casing of one character, the fragment of python `str.lower`
exercised by the ASCII move tokens the bot handles. -/
def asciiLower (c : Char) : Char :=
  if 'A' ≤ c ∧ c ≤ 'Z' then Char.ofNat (c.toNat + 32) else c

/-- ASCII upper-casing of one character, the fragment of python `str.upper`
exercised by the ASCII move tokens the bot handles. -/
def asciiUpper (c : Char) : Char :=
  if 'a' ≤ c ∧ c ≤ 'z' then Char.ofNat (c.toNat - 32) else c

/-- Python `c in s` for a single character. -/
def pyContains (s : String) (c : Char) : Bool :=
  s.data.any (fun d => d == c)

/-- Python `s.lower()` on ASCII data. -/
def pyLower (s : String) : String :=
  String.mk (s.data.map asciiLower)

/-- Python `s.upper()` on ASCII data. -/
def pyUpper (s : String) : String :=
  String.mk (s.data.map asciiUpper)

/-- Python `s.replace('0', 'O')`: a single-character replacement. -/
def replaceZeroWithO (s : String) : String :=
  String.mk (s.data.map (fun c => if c == '0' then 'O' else c))

/-- The castling-notation normalisation at the top of `make_move`: when the
token contains an `o` (either case) it is upper-cased and zeros become `O`. -/
def normalizeMoveStr (s : String) : String :=
  if pyContains (pyLower s) 'o' then replaceZeroWithO (pyUpper s) else s

/-- The `ChessGame.__init__` constructor.  For the Chess960 variant the
randomized start and the four initial castling-rights calls are abstracted
into `E.initPos true`. -/
def ChessGame.init {P M : Type} (E : Engine P M) (variant_960 : Bool) :
    Game P M :=
  let b : Board P M := { base := E.initPos variant_960, stack := [] }
  { board := b
    white_players := []
    black_players := []
    move_history := []
    completed := false
    timestamp := none
    is_960 := variant_960
    starting_fen := E.fenOf (Board.position E b)
    white_player_ids := []
    black_player_ids := [] }

/-- `ChessGame.make_move`: tries SAN first, then UCI with a legality check;
on success pushes the move and appends the human-readable token to
`move_history`; any failure returns `false` with the game untouched. -/
def ChessGame.make_move {P M : Type} [DecidableEq M] (E : Engine P M)
    (g : Game P M) (move_str : String) : Game P M × Bool :=
  let ms := normalizeMoveStr move_str
  match E.parseSan (Board.position E g.board) ms with
  | some m =>
      ({ g with
          board := { g.board with stack := g.board.stack ++ [m] }
          move_history := g.move_history ++ [ms] }, true)
  | none =>
      match E.moveFromUci ms with
      | some m =>
          if m ∈ E.legalMoves (Board.position E g.board) then
            ({ g with
                board := { g.board with stack := g.board.stack ++ [m] }
                move_history :=
                  g.move_history ++ [E.sanOf (Board.position E g.board) m] },
              true)
          else (g, false)
      | none => (g, false)

/-- `ChessGame.undo_move`: when `move_history` is non-empty it pops the
board first and then `move_history`; `none` models the uncaught
`IndexError` that `board.pop()` raises on an empty move stack. -/
def ChessGame.undo_move {P M : Type} (g : Game P M) :
    Option (Game P M × Option String) :=
  if 0 < g.move_history.length then
    match Board.popMove g.board with
    | none => none
    | some b =>
        some ({ g with board := b, move_history := g.move_history.dropLast },
          g.move_history.getLast?)
  else some (g, none)

/-- The plain key-value record `to_dict` writes and `from_dict` reads.
Fields read through python's `dict.get` (tolerated when missing) are
`Option`s; the remaining fields are required keys. -/
structure GameDict where
  fen : String
  starting_fen : Option String
  white_players : List Nat
  black_players : List Nat
  move_history : List String
  completed : Option Bool
  timestamp : Option String
  is_960 : Option Bool
deriving DecidableEq

/-- `ChessGame.to_dict`: the saved dictionary for a game. -/
def ChessGame.to_dict {P M : Type} (E : Engine P M) (g : Game P M) :
    GameDict :=
  { fen := E.fenOf (Board.position E g.board)
    starting_fen := some g.starting_fen
    white_players := g.white_players.map (fun p => p.id)
    black_players := g.black_players.map (fun p => p.id)
    move_history := g.move_history
    completed := some g.completed
    timestamp := g.timestamp
    is_960 := some g.is_960 }

/-- `ChessGame.from_dict`: builds a fresh game, `set_fen`s the saved FEN
(the move stack stays empty — the saved moves are not replayed), copies the
plain fields with defaults for missing keys, and resolves roster ids
through the bot's user lookup, silently dropping ids the lookup misses.
`none` models the exception `set_fen` raises on an unparsable FEN. -/
def ChessGame.from_dict {P M : Type} (E : Engine P M)
    (getUser : Nat → Option Player) (data : GameDict) : Option (Game P M) :=
  let g := ChessGame.init E (data.is_960.getD false)
  match Board.setFen E g.board data.fen with
  | none => none
  | some b =>
      some { g with
        board := b
        starting_fen := data.starting_fen.getD (E.fenOf (E.initPos false))
        move_history := data.move_history
        completed := data.completed.getD false
        timestamp := data.timestamp
        is_960 := data.is_960.getD false
        white_players := data.white_players.filterMap getUser
        black_players := data.black_players.filterMap getUser }

/-- The apostrophe character, used by the status strings. -/
def apos : String := String.singleton (Char.ofNat 39)

/-- `ChessGame.get_current_status`: the four status lines. -/
def ChessGame.get_current_status {P M : Type} (E : Engine P M)
    (g : Game P M) : List String :=
  let white := if g.white_players.isEmpty then "Vacant"
    else String.intercalate ", " (g.white_players.map (fun p => p.name))
  let black := if g.black_players.isEmpty then "Vacant"
    else String.intercalate ", " (g.black_players.map (fun p => p.name))
  let turnWhite := E.turnOf (Board.position E g.board)
  let current_turn := if turnWhite then "White" else "Black"
  let current_players := if turnWhite then g.white_players else g.black_players
  let player_names := if current_players.isEmpty then "No players"
    else String.intercalate ", " (current_players.map (fun p => p.name))
  ["⚪ White: " ++ white,
   "⚫ Black: " ++ black,
   "\nTurn " ++ toString (g.move_history.length / 2 + 1),
   "It" ++ apos ++ "s " ++ current_turn ++ apos ++ "s turn ("
     ++ player_names ++ ")"]

/-- One channel's record in `bot.channel_data`: the active game and the
past-games list.  `past_games = none` models a channel dictionary that
lacks the `past_games` key (the stop command guards for this). -/
structure ChannelEntry (P M : Type) where
  current_game : Option (Game P M)
  past_games : Option (List (Game P M))
deriving DecidableEq

/-- The in-memory channel store `bot.channel_data`: channel id to entry,
`none` for channels with no entry yet. -/
def ChannelMap (P M : Type) : Type := Nat → Option (ChannelEntry P M)

/-- Modelled from the spec: the Channel Store's `get_active(channel_id)`
operation (the bot's `get_current_game` helper, whose defining class is not
in the sources) returns the channel's active Game Record or an absent
result. -/
def getCurrentGame {P M : Type} (cd : ChannelMap P M) (ch : Nat) :
    Option (Game P M) :=
  match cd ch with
  | none => none
  | some e => e.current_game

/-- Stores `game` back as the channel's active game, as the in-place
mutation of the fetched game object does in python. -/
def setCurrentGame {P M : Type} (cd : ChannelMap P M) (ch : Nat)
    (g : Game P M) : ChannelMap P M :=
  fun n =>
    if n = ch then
      match cd ch with
      | none => some { current_game := some g, past_games := none }
      | some e => some { e with current_game := some g }
    else cd n

/-- Outcome of the slash-command `start`. -/
inductive StartOutcome where
  | rejectedActive
  | invalidFen
  | started
deriving DecidableEq

/-- `ChessCog.start` of `chess_cog.py`: rejects when the channel already
has an active game, creates the game (Chess960 when `variant == '960'`),
stamps the creation time, applies a custom FEN when one is given for a
non-960 game (rejecting an unparsable FEN before any state change), lazily
creates the channel entry and installs the game as the active one. -/
def ChessCog.start {P M : Type} (E : Engine P M) (cd : ChannelMap P M)
    (channel_id : Nat) (now : String) (variant : Option String)
    (fen : Option String) : ChannelMap P M × StartOutcome :=
  let hasActive := match cd channel_id with
    | none => false
    | some e => e.current_game.isSome
  if hasActive then (cd, StartOutcome.rejectedActive)
  else
    let is_960 := variant = some "960"
    let game := ChessGame.init E is_960
    let game := { game with timestamp := some now }
    let install := fun (g : Game P M) =>
      let entry : ChannelEntry P M := match cd channel_id with
        | none => { current_game := none, past_games := some [] }
        | some e => e
      let entry := { entry with current_game := some g }
      ((fun n => if n = channel_id then some entry else cd n : ChannelMap P M),
        StartOutcome.started)
    match fen with
    | some f =>
        if f ≠ "" ∧ ¬ is_960 then
          match Board.setFen E game.board f with
          | none => (cd, StartOutcome.invalidFen)
          | some b => install { game with board := b }
        else install game
    | none => install game

/-- Outcome of the slash-command `stop`. -/
inductive StopOutcome where
  | noActive
  | stopped
deriving DecidableEq

/-- `ChessCog.stop` of `chess_cog.py`: with an active game, marks it
completed, overwrites its timestamp with the completion time, appends it
to the channel's past-games list (creating the list when the key is
missing) and clears the active slot. -/
def ChessCog.stop {P M : Type} (cd : ChannelMap P M) (channel_id : Nat)
    (now : String) : ChannelMap P M × StopOutcome :=
  match cd channel_id with
  | none => (cd, StopOutcome.noActive)
  | some e =>
      match e.current_game with
      | none => (cd, StopOutcome.noActive)
      | some g =>
          let g := { g with completed := true, timestamp := some now }
          let past := e.past_games.getD []
          let e := { e with past_games := some (past ++ [g]),
                            current_game := none }
          ((fun n => if n = channel_id then some e else cd n), StopOutcome.stopped)

/-- discord.py member equality: identifiers compared. -/
def userEqb (a b : Player) : Bool := a.id = b.id

/-- Python `user in players` under discord.py member equality. -/
def memberB (u : Player) (l : List Player) : Bool :=
  l.any (userEqb u)

/-- Python `players.remove(user)`: removes the first member equal to the
user (no-op here when absent; python would raise, but every call site
checks membership first). -/
def removeFirst (u : Player) : List Player → List Player
  | [] => []
  | x :: xs => if userEqb u x then xs else x :: removeFirst u xs

/-- The identifiers of a roster, in roster order. -/
def rosterIds (l : List Player) : List Nat := l.map (fun p => p.id)

/-- Outcome of the slash-command `join`. -/
inductive JoinOutcome where
  | noGame
  | invalidColor
  | alreadyWhite
  | alreadyBlack
  | joined
deriving DecidableEq

/-- `ChessCog.join` of `chess_cog.py`: validates the colour, rejects a user
already on either roster, otherwise appends the user to the requested
roster. -/
def ChessCog.join {P M : Type} (cd : ChannelMap P M) (ch : Nat)
    (user : Player) (color : String) : ChannelMap P M × JoinOutcome :=
  match getCurrentGame cd ch with
  | none => (cd, JoinOutcome.noGame)
  | some game =>
      let color := pyLower color
      if color ≠ "white" ∧ color ≠ "black" then (cd, JoinOutcome.invalidColor)
      else if memberB user game.white_players then (cd, JoinOutcome.alreadyWhite)
      else if memberB user game.black_players then (cd, JoinOutcome.alreadyBlack)
      else
        let game := if color = "white" then
            { game with white_players := game.white_players ++ [user] }
          else
            { game with black_players := game.black_players ++ [user] }
        (setCurrentGame cd ch game, JoinOutcome.joined)

/-- Outcome of the slash-command `assign_player`. -/
inductive AssignOutcome where
  | noPermission
  | noGame
  | invalidColor
  | alreadyOnTeam
  | needForce
  | assigned
deriving DecidableEq

/-- `ChessCog.assign_player` of `chess_cog.py`: admin-only; rejects when the
user is already on the requested roster, requires `force` to move a user
off the other roster, then removes the user from their current roster (if
any) and appends them to the requested one. -/
def ChessCog.assign_player {P M : Type} (cd : ChannelMap P M) (ch : Nat)
    (isAdmin : Bool) (user : Player) (color : String) (force : Bool) :
    ChannelMap P M × AssignOutcome :=
  if ¬ isAdmin then (cd, AssignOutcome.noPermission)
  else match getCurrentGame cd ch with
  | none => (cd, AssignOutcome.noGame)
  | some game =>
      let color := pyLower color
      if color ≠ "white" ∧ color ≠ "black" then (cd, AssignOutcome.invalidColor)
      else
        let current_team : Option String :=
          if memberB user game.white_players then some "white"
          else if memberB user game.black_players then some "black"
          else none
        if current_team = some color then (cd, AssignOutcome.alreadyOnTeam)
        else if current_team.isSome ∧ ¬ force then (cd, AssignOutcome.needForce)
        else
          let game := if current_team = some "white" then
              { game with white_players := removeFirst user game.white_players }
            else if current_team = some "black" then
              { game with black_players := removeFirst user game.black_players }
            else game
          let game := if color = "white" then
              { game with white_players := game.white_players ++ [user] }
            else
              { game with black_players := game.black_players ++ [user] }
          (setCurrentGame cd ch game, AssignOutcome.assigned)

/-- The legacy `ChessGame` of `chess_bot.py` (one player per side, no
persistence fields). -/
structure LegacyGame (P M : Type) where
  board : Board P M
  white_player : Option Player
  black_player : Option Player
  move_history : List String
deriving DecidableEq

/-- The legacy constructor: a standard board, vacant seats, empty history. -/
def LegacyGame.init {P M : Type} (E : Engine P M) : LegacyGame P M :=
  { board := { base := E.initPos false, stack := [] }
    white_player := none
    black_player := none
    move_history := [] }

/-- Outcome of the legacy prefix-command `start`. -/
inductive LegacyStartOutcome where
  | invalidFen
  | started
deriving DecidableEq

/-- The legacy `start` command of `chess_bot.py`: builds a fresh game
(optionally `set_fen` to a custom position, rejecting an unparsable FEN)
and stores it for the channel unconditionally — it never checks for an
already-active game. -/
def legacyStart {P M : Type} (E : Engine P M)
    (games : Nat → Option (LegacyGame P M)) (ch : Nat)
    (fen : Option String) :
    (Nat → Option (LegacyGame P M)) × LegacyStartOutcome :=
  let game := LegacyGame.init E
  let install := fun (g : LegacyGame P M) =>
    ((fun n => if n = ch then some g else games n), LegacyStartOutcome.started)
  match fen with
  | some f =>
      if f ≠ "" then
        match Board.setFen E game.board f with
        | none => (games, LegacyStartOutcome.invalidFen)
        | some b => install { game with board := b }
      else install game
  | none => install game

/-- Bitboard of the first rank (python-chess `BB_RANK_1`). -/
def bbRank1 : Nat := 0xFF

/-- Bitboard of the eighth rank (python-chess `BB_RANK_8`). -/
def bbRank8 : Nat := 0xFF <<< 56

/-- All 64 squares set. -/
def bbAll : Nat := 2 ^ 64 - 1

/-- 64-bit bitboard complement, python `~x` under the 64-bit masking the
library's bitboard arithmetic effectively lives in. -/
def bbNot (x : Nat) : Nat := bbAll ^^^ (x &&& bbAll)

/-- Square bitboards used by the castling logic. -/
def bbA1 : Nat := 1

/-- The h1 square bit. -/
def bbH1 : Nat := 1 <<< 7

/-- The e1 square bit. -/
def bbE1 : Nat := 1 <<< 4

/-- The a8 square bit. -/
def bbA8 : Nat := 1 <<< 56

/-- The e8 square bit. -/
def bbE8 : Nat := 1 <<< 60

/-- The h8 square bit. -/
def bbH8 : Nat := 1 <<< 63

/-- Python `int.bit_length` for 64-bit bitboards, by fuel over the at most
64 binary digits involved. -/
def bitLenAux : Nat → Nat → Nat
  | 0, _ => 0
  | fuel + 1, n => if n = 0 then 0 else bitLenAux fuel (n / 2) + 1

/-- Bit length of a bitboard. -/
def bitLen (n : Nat) : Nat := bitLenAux 64 n

/-- python-chess `msb`: `bb.bit_length() - 1`, which is `-1` on the empty
bitboard. -/
def msb (n : Nat) : Int := (bitLen n : Int) - 1

/-- The lowest set bit of a bitboard as a mask (python `bb & -bb`), `0` on
the empty bitboard. -/
def lowBit (n : Nat) : Nat := n &&& (n ^^^ (n - 1))

/-- python-chess `lsb`: `(bb & -bb).bit_length() - 1`, `-1` on empty. -/
def lsb (n : Nat) : Int := (bitLen (lowBit n) : Int) - 1

/-- Python `BB_SQUARES[i]` including the negative-index wrap-around that
`BB_SQUARES[msb(0)] = BB_SQUARES[-1]` hits: the last list element. -/
def bbSquares (i : Int) : Nat :=
  if 0 ≤ i then 1 <<< i.toNat else 1 <<< (64 + i).toNat

/-- The slice of python-chess `Board` state that the castling helpers of
`chess_game.py` read and write directly: piece bitboards, per-colour
occupancy, the raw castling-rights bitboard, the variant flag, and whether
the move stack is empty (`clean_castling_rights` checks it). -/
structure CastlingBoard where
  kings : Nat
  rooks : Nat
  occWhite : Nat
  occBlack : Nat
  promoted : Nat
  castling_rights : Nat
  chess960 : Bool
  stackIsEmpty : Bool
deriving DecidableEq

/-- python-chess `board.occupied_co[color]` (`true` is white). -/
def occupiedCo (b : CastlingBoard) (color : Bool) : Nat :=
  if color then b.occWhite else b.occBlack

/-- Modelled from the external python-chess library:
`Board.clean_castling_rights`, the filtered castling bitboard the
`has_*_castling_rights` queries consume. -/
def cleanCastlingRights (b : CastlingBoard) : Nat :=
  if ¬ b.stackIsEmpty then b.castling_rights
  else
    let castling := b.castling_rights &&& b.rooks
    let white_castling := castling &&& bbRank1 &&& b.occWhite
    let black_castling := castling &&& bbRank8 &&& b.occBlack
    if ¬ b.chess960 then
      let white_castling := white_castling &&& (bbA1 ||| bbH1)
      let black_castling := black_castling &&& (bbA8 ||| bbH8)
      let white_castling :=
        if b.occWhite &&& b.kings &&& bbNot b.promoted &&& bbE1 = 0 then 0
        else white_castling
      let black_castling :=
        if b.occBlack &&& b.kings &&& bbNot b.promoted &&& bbE8 = 0 then 0
        else black_castling
      white_castling ||| black_castling
    else
      let white_king_mask := b.occWhite &&& b.kings &&& bbRank1 &&& bbNot b.promoted
      let black_king_mask := b.occBlack &&& b.kings &&& bbRank8 &&& bbNot b.promoted
      let white_castling := if white_king_mask = 0 then 0 else white_castling
      let black_castling := if black_king_mask = 0 then 0 else black_castling
      let white_a_side := lowBit white_castling
      let white_h_side := if white_castling ≠ 0 then bbSquares (msb white_castling) else 0
      let white_a_side :=
        if white_a_side ≠ 0 ∧ msb white_a_side > msb white_king_mask then 0
        else white_a_side
      let white_h_side :=
        if white_h_side ≠ 0 ∧ msb white_h_side < msb white_king_mask then 0
        else white_h_side
      let black_a_side := lowBit black_castling
      let black_h_side := if black_castling ≠ 0 then bbSquares (msb black_castling) else 0
      let black_a_side :=
        if black_a_side ≠ 0 ∧ msb black_a_side > msb black_king_mask then 0
        else black_a_side
      let black_h_side :=
        if black_h_side ≠ 0 ∧ msb black_h_side < msb black_king_mask then 0
        else black_h_side
      black_a_side ||| black_h_side ||| white_a_side ||| white_h_side

/-- Whether some set bit of `bb` is a strictly larger mask than `kingMask`
(the python loop over set bits testing `rook > king_mask`). -/
def anyBitAbove (bb kingMask : Nat) : Bool :=
  (List.range 64).any (fun j => bb.testBit j && decide (kingMask < 2 ^ j))

/-- Whether some set bit of `bb` is a strictly smaller mask than `kingMask`
(the python loop over set bits testing `rook < king_mask`). -/
def anyBitBelow (bb kingMask : Nat) : Bool :=
  (List.range 64).any (fun j => bb.testBit j && decide (2 ^ j < kingMask))

/-- Modelled from the external python-chess library:
`Board.has_kingside_castling_rights`. -/
def hasKingsideCastlingRights (b : CastlingBoard) (color : Bool) : Bool :=
  let backrank := if color then bbRank1 else bbRank8
  let king_mask := b.kings &&& occupiedCo b color &&& backrank &&& bbNot b.promoted
  if king_mask = 0 then false
  else anyBitAbove (cleanCastlingRights b &&& backrank) king_mask

/-- Modelled from the external python-chess library:
`Board.has_queenside_castling_rights`. -/
def hasQueensideCastlingRights (b : CastlingBoard) (color : Bool) : Bool :=
  let backrank := if color then bbRank1 else bbRank8
  let king_mask := b.kings &&& occupiedCo b color &&& backrank &&& bbNot b.promoted
  if king_mask = 0 then false
  else anyBitBelow (cleanCastlingRights b &&& backrank) king_mask

/-- `ChessGame.reset_castling_rights` of `chess_game.py`: picks the
rightmost (kingside) or leftmost (queenside) rook of the colour on its back
rank and ORs that rook's square bit into `board.castling_rights`; any other
wing string falls through without effect. -/
def ChessGame.reset_castling_rights (b : CastlingBoard) (color : Bool)
    (wing : String) : CastlingBoard :=
  let rank := if color then bbRank1 else bbRank8
  let rooks := b.rooks &&& rank &&& occupiedCo b color
  if wing = "kingside" then
    { b with castling_rights := b.castling_rights ||| bbSquares (msb rooks) }
  else if wing = "queenside" then
    { b with castling_rights := b.castling_rights ||| bbSquares (lsb rooks) }
  else b

/-- `ChessGame.get_castling_rights` of `chess_game.py`: the human-readable
summary built from the four `has_*_castling_rights` queries. -/
def ChessGame.get_castling_rights (b : CastlingBoard) : String :=
  let rights : List String :=
    (if hasKingsideCastlingRights b true then ["White O-O"] else [])
    ++ (if hasQueensideCastlingRights b true then ["White O-O-O"] else [])
    ++ (if hasKingsideCastlingRights b false then ["Black O-O"] else [])
    ++ (if hasQueensideCastlingRights b false then ["Black O-O-O"] else [])
  if rights.isEmpty then "No castling rights remaining"
  else "Available castling: " ++ String.intercalate ", " rights

/-- A small concrete instance of the abstract rules engine, used to
instantiate the witnesses: positions are strings, a move is the token that
produced it, applying a move appends it to the position string. -/
def demoE : Engine String String :=
  { applyMove := fun p m => p ++ "/" ++ m
    parseSan := fun _ s => if s = "e4" ∨ s = "e5" then some s else none
    moveFromUci := fun s => if s = "a2a4" then some s else none
    legalMoves := fun _ => ["a2a4"]
    sanOf := fun _ m => m
    fenOf := fun p => p
    fenParse := fun s => some s
    turnOf := fun p => p.length % 2 = 0
    initPos := fun is960 => if is960 then "start960" else "start" }

/-- A fresh standard game under the demo engine. -/
def demoGame0 : Game String String := ChessGame.init demoE false

/-- A demo game with one player on each roster. -/
def demoGameP : Game String String :=
  { demoGame0 with
      white_players := [{ id := 1, name := "alice" }]
      black_players := [{ id := 2, name := "bob" }] }

/-- A demo game sitting on a different (mid-game) position but with the
same empty move history as `demoGame0`. -/
def demoGameF : Game String String :=
  { demoGame0 with board := { base := "midgame", stack := [] } }

/-- An empty demo channel store. -/
def demoCDEmpty : ChannelMap String String := fun _ => none

/-- The game the slash-command start installs in the C10 witness scenario:
a fresh game stamped `t0` whose board was `set_fen` to the custom FEN. -/
def c10DemoStarted : Game String String :=
  { ChessGame.init demoE false with
      timestamp := some "t0"
      board := { base := "midfen", stack := [] } }

/-- The white player of the demo game. -/
def demoAlice : Player := { id := 1, name := "alice" }

/-- The demo game after force-assigning `demoAlice` from white to black:
white becomes empty, black gains her at the end. -/
def c7DemoGame : Game String String :=
  { demoGameP with
      white_players := []
      black_players := [{ id := 2, name := "bob" }, { id := 1, name := "alice" }] }

/-- A demo channel entry whose active game is `demoGameP`. -/
def demoEntry : ChannelEntry String String :=
  { current_game := some demoGameP, past_games := some [] }

/-- A demo channel store with one channel (id 1) holding an active game. -/
def demoCD : ChannelMap String String :=
  fun n => if n = 1 then some demoEntry else none

/-- A demo user lookup that resolves every identifier. -/
def demoBot : Nat → Option Player :=
  fun n => some { id := n, name := "user" }

/-- A saved record with one move in its history, as `to_dict` would write
after `1. e4` (the demo engine's position string after that move). -/
def demoSavedDict : GameDict :=
  { fen := "start/e4"
    starting_fen := some "start"
    white_players := []
    black_players := []
    move_history := ["e4"]
    completed := some false
    timestamp := none
    is_960 := some false }

/-- A legacy game mid-play (one move made). -/
def legacyDemoGame : LegacyGame String String :=
  { board := { base := "start", stack := ["e4"] }
    white_player := none
    black_player := none
    move_history := ["e4"] }

/-- A legacy channel-to-game map with an active game in channel 1. -/
def legacyDemoGames : Nat → Option (LegacyGame String String) :=
  fun n => if n = 1 then some legacyDemoGame else none

/-- A board with a white rook on h1, kings on e1 and e8, and an empty
castling-rights bitboard: nobody may castle. -/
def castlingDemoNoRights : CastlingBoard :=
  { kings := bbE1 ||| bbE8
    rooks := bbH1
    occWhite := bbE1 ||| bbH1
    occBlack := bbE8
    promoted := 0
    castling_rights := 0
    chess960 := false
    stackIsEmpty := true }

/-- The standard chess starting position's castling-relevant state: all
four castling rights present. -/
def castlingDemoStandard : CastlingBoard :=
  { kings := bbE1 ||| bbE8
    rooks := bbA1 ||| bbH1 ||| bbA8 ||| bbH8
    occWhite := 0xFFFF
    occBlack := 0xFFFF <<< 48
    promoted := 0
    castling_rights := bbA1 ||| bbH1 ||| bbA8 ||| bbH8
    chess960 := false
    stackIsEmpty := true }

/-- C1: a move accepted by `make_move` pushes exactly one ply onto the
board (the new position is the old one with that move applied), appends
exactly one token to `move_history`, and an immediate `undo_move` returns
the exact prior game state together with the appended token. -/
theorem c1_move_undo_round_trip {P M : Type} [DecidableEq M] (E : Engine P M)
    (g g' : Game P M) (s : String)
    (h : ChessGame.make_move E g s = (g', true)) :
    (∃ m, g'.board.stack = g.board.stack ++ [m] ∧
        Board.position E g'.board = E.applyMove (Board.position E g.board) m) ∧
    (∃ t, g'.move_history = g.move_history ++ [t] ∧
        ChessGame.undo_move g' = some (g, some t)) ∧
    g'.board.stack.length = g.board.stack.length + 1 := by
  unfold ChessGame.make_move at h
  dsimp only at h
  split at h
  case h_1 m hp =>
    injection h with h1 h2
    subst h1
    refine ⟨⟨m, rfl, ?_⟩, ⟨normalizeMoveStr s, rfl, ?_⟩, by simp⟩
    · simp [Board.position, List.foldl_append]
    · obtain ⟨⟨base, st⟩, wp, bp, mh, co, ts, i9, sf, wi, bi⟩ := g
      simp [ChessGame.undo_move, Board.popMove]
  case h_2 hp =>
    split at h
    case h_1 m hu =>
      split at h
      case isTrue hleg =>
        injection h with h1 h2
        subst h1
        refine ⟨⟨m, rfl, ?_⟩,
          ⟨E.sanOf (Board.position E g.board) m, rfl, ?_⟩, by simp⟩
        · simp [Board.position, List.foldl_append]
        · obtain ⟨⟨base, st⟩, wp, bp, mh, co, ts, i9, sf, wi, bi⟩ := g
          simp [ChessGame.undo_move, Board.popMove]
      case isFalse hleg =>
        exact absurd (congrArg Prod.snd h) (by simp)
    case h_2 hu =>
      exact absurd (congrArg Prod.snd h) (by simp)

/-- C1 witness: from the fresh demo game, the accepted token `e4` satisfies
the round-trip theorem. -/
theorem c1_move_undo_round_trip_witness :
    ChessGame.make_move demoE demoGame0 "e4"
        = ((ChessGame.make_move demoE demoGame0 "e4").1, true) ∧
    ((∃ m, (ChessGame.make_move demoE demoGame0 "e4").1.board.stack
            = demoGame0.board.stack ++ [m] ∧
        Board.position demoE (ChessGame.make_move demoE demoGame0 "e4").1.board
          = demoE.applyMove (Board.position demoE demoGame0.board) m) ∧
    (∃ t, (ChessGame.make_move demoE demoGame0 "e4").1.move_history
            = demoGame0.move_history ++ [t] ∧
        ChessGame.undo_move (ChessGame.make_move demoE demoGame0 "e4").1
          = some (demoGame0, some t)) ∧
    (ChessGame.make_move demoE demoGame0 "e4").1.board.stack.length
        = demoGame0.board.stack.length + 1) :=
  ⟨by decide,
    c1_move_undo_round_trip demoE demoGame0
      (ChessGame.make_move demoE demoGame0 "e4").1 "e4" (by decide)⟩

/-- C2: `make_move` never mutates the game when it reports failure, and a
token that fails SAN parsing and is not a legal UCI move is reported as a
failure with the game returned untouched. -/
theorem c2_failed_move_no_state_change {P M : Type} [DecidableEq M]
    (E : Engine P M) (g : Game P M) (s : String) :
    (∀ g', ChessGame.make_move E g s = (g', false) → g' = g) ∧
    (E.parseSan (Board.position E g.board) (normalizeMoveStr s) = none →
      (∀ m, E.moveFromUci (normalizeMoveStr s) = some m →
        m ∉ E.legalMoves (Board.position E g.board)) →
      ChessGame.make_move E g s = (g, false)) := by
  constructor
  · intro g' h
    unfold ChessGame.make_move at h
    dsimp only at h
    split at h
    · exact absurd (congrArg Prod.snd h) (by simp)
    · split at h
      · split at h
        · exact absurd (congrArg Prod.snd h) (by simp)
        · exact (congrArg Prod.fst h).symm
      · exact (congrArg Prod.fst h).symm
  · intro h1 h2
    unfold ChessGame.make_move
    dsimp only
    rw [h1]
    cases hu : E.moveFromUci (normalizeMoveStr s) with
    | none => rfl
    | some m => simp [h2 m hu]

/-- C2 witness: the unparseable token `zz` is rejected by the demo engine
and the fresh demo game is returned unchanged. -/
theorem c2_failed_move_no_state_change_witness :
    (demoE.parseSan (Board.position demoE demoGame0.board)
        (normalizeMoveStr "zz") = none ∧
      (∀ m, demoE.moveFromUci (normalizeMoveStr "zz") = some m →
        m ∉ demoE.legalMoves (Board.position demoE demoGame0.board))) ∧
    ChessGame.make_move demoE demoGame0 "zz" = (demoGame0, false) :=
  ⟨⟨by decide, by decide⟩,
    (c2_failed_move_no_state_change demoE demoGame0 "zz").2 (by decide)
      (by decide)⟩

/-- C9: `make_move` and `undo_move` only touch the board and the move
history: the rosters, the completed flag, the timestamp, the starting FEN
and the variant flag all come through unchanged. -/
theorem c9_move_undo_frame {P M : Type} [DecidableEq M] (E : Engine P M)
    (g : Game P M) (s : String) :
    ((ChessGame.make_move E g s).1.white_players = g.white_players ∧
      (ChessGame.make_move E g s).1.black_players = g.black_players ∧
      (ChessGame.make_move E g s).1.completed = g.completed ∧
      (ChessGame.make_move E g s).1.timestamp = g.timestamp ∧
      (ChessGame.make_move E g s).1.starting_fen = g.starting_fen ∧
      (ChessGame.make_move E g s).1.is_960 = g.is_960) ∧
    (∀ r, ChessGame.undo_move g = some r →
      r.1.white_players = g.white_players ∧
      r.1.black_players = g.black_players ∧
      r.1.completed = g.completed ∧
      r.1.timestamp = g.timestamp ∧
      r.1.starting_fen = g.starting_fen ∧
      r.1.is_960 = g.is_960) := by
  constructor
  · unfold ChessGame.make_move
    dsimp only
    split
    · simp
    · split
      · split
        · simp
        · simp
      · simp
  · intro r h
    unfold ChessGame.undo_move at h
    split at h
    · split at h
      · exact absurd h (by simp)
      · injection h with h1
        subst h1
        simp
    · injection h with h1
      subst h1
      simp

/-- C9 witness: the frame conditions evaluated on the demo game for the
token `e4`, and for `undo_move` at its concrete result on that game. -/
theorem c9_move_undo_frame_witness :
    ChessGame.undo_move demoGameP = some (demoGameP, none) ∧
    ((ChessGame.make_move demoE demoGameP "e4").1.white_players
        = demoGameP.white_players ∧
      (ChessGame.make_move demoE demoGameP "e4").1.black_players
        = demoGameP.black_players ∧
      (ChessGame.make_move demoE demoGameP "e4").1.completed
        = demoGameP.completed ∧
      (ChessGame.make_move demoE demoGameP "e4").1.timestamp
        = demoGameP.timestamp ∧
      (ChessGame.make_move demoE demoGameP "e4").1.starting_fen
        = demoGameP.starting_fen ∧
      (ChessGame.make_move demoE demoGameP "e4").1.is_960
        = demoGameP.is_960) ∧
    ((demoGameP, (none : Option String)).1.white_players
        = demoGameP.white_players ∧
      (demoGameP, (none : Option String)).1.black_players
        = demoGameP.black_players ∧
      (demoGameP, (none : Option String)).1.completed = demoGameP.completed ∧
      (demoGameP, (none : Option String)).1.timestamp = demoGameP.timestamp ∧
      (demoGameP, (none : Option String)).1.starting_fen
        = demoGameP.starting_fen ∧
      (demoGameP, (none : Option String)).1.is_960 = demoGameP.is_960) :=
  ⟨by decide, (c9_move_undo_frame demoE demoGameP "e4").1,
    (c9_move_undo_frame demoE demoGameP "e4").2 (demoGameP, none) (by decide)⟩

/-- C3: evaluation at the failing input.  Saving the game reached by the
single move `e4` and loading the record back yields a game whose
`move_history` has one entry while the board's move stack is empty (the
loaded FEN is not replayed), so the lock-step invariant is broken; calling
`undo_move` on that state hits `board.pop()` on an empty stack, the
modelled `IndexError` crash, instead of reverting a ply. -/
theorem c3_deserialized_state_breaks_lockstep :
    ChessGame.to_dict demoE (ChessGame.make_move demoE demoGame0 "e4").1
        = demoSavedDict ∧
    (ChessGame.from_dict demoE demoBot demoSavedDict).map
        (fun g => (g.move_history.length, g.board.stack.length))
      = some (1, 0) ∧
    (ChessGame.from_dict demoE demoBot demoSavedDict).bind
        ChessGame.undo_move = none := by
  refine ⟨by decide, by decide, by decide⟩

/-- Identifier lists survive the save-and-resolve cycle: filtering a
roster's id list through a lookup that resolves every id (to a user
carrying that id) reproduces the id list. -/
theorem rosterIds_filterMap_getUser (getUser : Nat → Option Player)
    (hid : ∀ n u, getUser n = some u → u.id = n) :
    ∀ l : List Player, (∀ u ∈ l, (getUser u.id).isSome) →
      rosterIds ((rosterIds l).filterMap getUser) = rosterIds l := by
  intro l
  induction l with
  | nil => intro _; rfl
  | cons x xs ih =>
      intro h
      obtain ⟨u, hu⟩ :=
        Option.isSome_iff_exists.mp (h x (List.mem_cons_self x xs))
      have hxs : ∀ v ∈ xs, (getUser v.id).isSome :=
        fun v hv => h v (List.mem_cons_of_mem x hv)
      simp only [rosterIds, List.map_cons, List.filterMap_cons, hu]
      simp only [rosterIds] at ih
      rw [ih hxs, hid x.id u hu]

/-- C8: serializing a game with `to_dict` and deserializing with
`from_dict` reproduces an equivalent record — same position, starting FEN,
move history, completed flag, timestamp, variant flag and roster
identifiers — given the engine's FEN round-trip guarantee and a user
lookup that resolves every stored identifier (the library-internal player
objects themselves are re-resolved by that lookup). -/
theorem c8_serialize_deserialize_round_trip {P M : Type} [DecidableEq M]
    (E : Engine P M) (getUser : Nat → Option Player) (g : Game P M)
    (hfen : ∀ p, E.fenParse (E.fenOf p) = some p)
    (hid : ∀ n u, getUser n = some u → u.id = n)
    (hw : ∀ u ∈ g.white_players, (getUser u.id).isSome)
    (hb : ∀ u ∈ g.black_players, (getUser u.id).isSome) :
    ∃ g', ChessGame.from_dict E getUser (ChessGame.to_dict E g) = some g' ∧
      Board.position E g'.board = Board.position E g.board ∧
      g'.starting_fen = g.starting_fen ∧
      g'.move_history = g.move_history ∧
      g'.completed = g.completed ∧
      g'.timestamp = g.timestamp ∧
      g'.is_960 = g.is_960 ∧
      rosterIds g'.white_players = rosterIds g.white_players ∧
      rosterIds g'.black_players = rosterIds g.black_players := by
  unfold ChessGame.from_dict ChessGame.to_dict Board.setFen
  dsimp only
  rw [hfen]
  exact ⟨_, rfl, rfl, rfl, rfl, rfl, rfl, rfl,
    rosterIds_filterMap_getUser getUser hid g.white_players hw,
    rosterIds_filterMap_getUser getUser hid g.black_players hb⟩

/-- C8 witness: the round trip at the demo game with one player per side,
under the demo engine (whose FEN round-trip holds definitionally) and a
lookup resolving every id. -/
theorem c8_serialize_deserialize_round_trip_witness :
    ((∀ p, demoE.fenParse (demoE.fenOf p) = some p) ∧
      (∀ n u, demoBot n = some u → u.id = n) ∧
      (∀ u ∈ demoGameP.white_players, (demoBot u.id).isSome) ∧
      (∀ u ∈ demoGameP.black_players, (demoBot u.id).isSome)) ∧
    (∃ g', ChessGame.from_dict demoE demoBot
          (ChessGame.to_dict demoE demoGameP) = some g' ∧
      Board.position demoE g'.board = Board.position demoE demoGameP.board ∧
      g'.starting_fen = demoGameP.starting_fen ∧
      g'.move_history = demoGameP.move_history ∧
      g'.completed = demoGameP.completed ∧
      g'.timestamp = demoGameP.timestamp ∧
      g'.is_960 = demoGameP.is_960 ∧
      rosterIds g'.white_players = rosterIds demoGameP.white_players ∧
      rosterIds g'.black_players = rosterIds demoGameP.black_players) :=
  ⟨⟨fun _ => rfl,
    fun n u h => by injection h with h1; subst h1; rfl,
    by decide, by decide⟩,
    c8_serialize_deserialize_round_trip demoE demoBot demoGameP
      (fun _ => rfl)
      (fun n u h => by injection h with h1; subst h1; rfl)
      (by decide) (by decide)⟩

/-- A game installed by a successful slash-command `start` always begins
with an empty move history, whichever creation path (plain, variant or
custom FEN) produced it. -/
theorem start_installs_fresh_history {P M : Type} (E : Engine P M)
    (cd : ChannelMap P M) (ch : Nat) (now : String)
    (variant fen : Option String) (m : ChannelMap P M) (e : ChannelEntry P M)
    (gg : Game P M)
    (h : ChessCog.start E cd ch now variant fen = (m, StartOutcome.started))
    (h1 : m ch = some e) (h3 : e.current_game = some gg) :
    gg.move_history = [] := by
  unfold ChessCog.start at h
  dsimp only at h
  split at h
  · exact absurd (congrArg Prod.snd h) (by simp)
  · split at h
    · split at h
      · split at h
        · exact absurd (congrArg Prod.snd h) (by simp)
        · have hm := congrArg Prod.fst h
          dsimp at hm
          subst hm
          simp only [if_pos rfl] at h1
          injection h1 with h1
          subst h1
          simp at h3
          subst h3
          simp [ChessGame.init]
      · have hm := congrArg Prod.fst h
        dsimp at hm
        subst hm
        simp only [if_pos rfl] at h1
        injection h1 with h1
        subst h1
        simp at h3
        subst h3
        simp [ChessGame.init]
    · have hm := congrArg Prod.fst h
      dsimp at hm
      subst hm
      simp only [if_pos rfl] at h1
      injection h1 with h1
      subst h1
      simp at h3
      subst h3
      simp [ChessGame.init]

/-- C10: the status turn number is `len(move_history) / 2 + 1` computed
from the stored move history alone — any two games with equally long
histories display the same turn line whatever their boards hold — and a
game freshly started from a custom FEN displays turn 1 regardless of the
fullmove number embedded in that FEN. -/
theorem c10_turn_number_from_history {P M : Type} (E E' : Engine P M)
    (g g' : Game P M) :
    (ChessGame.get_current_status E g).get? 2
        = some ("\nTurn " ++ toString (g.move_history.length / 2 + 1)) ∧
    (g'.move_history.length = g.move_history.length →
      (ChessGame.get_current_status E' g').get? 2
        = (ChessGame.get_current_status E g).get? 2) ∧
    (∀ cd ch now fen m e gg,
      ChessCog.start E cd ch now none (some fen) = (m, StartOutcome.started) →
      m ch = some e → e.current_game = some gg →
      (ChessGame.get_current_status E gg).get? 2 = some "\nTurn 1") := by
  refine ⟨rfl, ?_, ?_⟩
  · intro hlen
    show some ("\nTurn " ++ toString (g'.move_history.length / 2 + 1))
      = some ("\nTurn " ++ toString (g.move_history.length / 2 + 1))
    rw [hlen]
  · intro cd ch now fen m e gg h h1 h3
    have hh := start_installs_fresh_history E cd ch now none (some fen) m e gg h h1 h3
    show some ("\nTurn " ++ toString (gg.move_history.length / 2 + 1))
      = some "\nTurn 1"
    rw [hh]
    rfl

/-- C10 witness: a game on a mid-game position with an empty history shows
the same turn line as the fresh game, and starting from a custom FEN in an
empty channel displays turn 1. -/
theorem c10_turn_number_from_history_witness :
    demoGameF.move_history.length = demoGame0.move_history.length ∧
    ((ChessGame.get_current_status demoE demoGameF).get? 2
        = (ChessGame.get_current_status demoE demoGame0).get? 2) ∧
    ChessCog.start demoE demoCDEmpty 1 "t0" none (some "midfen")
        = ((ChessCog.start demoE demoCDEmpty 1 "t0" none (some "midfen")).1,
            StartOutcome.started) ∧
    (ChessCog.start demoE demoCDEmpty 1 "t0" none (some "midfen")).1 1
        = some { current_game := some c10DemoStarted, past_games := some [] } ∧
    (ChessGame.get_current_status demoE c10DemoStarted).get? 2
        = some "\nTurn 1" :=
  ⟨by decide,
    (c10_turn_number_from_history demoE demoE demoGame0 demoGameF).2.1
      (by decide),
    rfl,
    by decide,
    (c10_turn_number_from_history demoE demoE demoGame0 demoGameF).2.2
      demoCDEmpty 1 "t0" "midfen"
      (ChessCog.start demoE demoCDEmpty 1 "t0" none (some "midfen")).1
      { current_game := some c10DemoStarted, past_games := some [] }
      c10DemoStarted rfl (by decide) rfl⟩

/-- C5 (amended): issuing a slash-command start (`ChessCog.start` in
`chess_cog.py`) on a channel with an active game yields a rejection and
returns the channel store unchanged — no new game replaces the active
one.  (The legacy prefix-command start of `chess_bot.py`, also cited by the
claim, instead replaces the active game unconditionally; see the
counterexample.) -/
theorem c5_cog_start_rejected_when_active {P M : Type} (E : Engine P M)
    (cd : ChannelMap P M) (ch : Nat) (now : String)
    (variant fen : Option String) (e : ChannelEntry P M) (g : Game P M)
    (he : cd ch = some e) (hg : e.current_game = some g) :
    ChessCog.start E cd ch now variant fen
      = (cd, StartOutcome.rejectedActive) := by
  unfold ChessCog.start
  simp [he, hg]

/-- C5 witness: the demo channel store with an active game in channel 1 is
returned untouched with a rejection by the slash-command start. -/
theorem c5_cog_start_rejected_when_active_witness :
    (demoCD 1 = some demoEntry ∧ demoEntry.current_game = some demoGameP) ∧
    ChessCog.start demoE demoCD 1 "t1" none none
        = (demoCD, StartOutcome.rejectedActive) :=
  ⟨⟨by decide, by decide⟩,
    c5_cog_start_rejected_when_active demoE demoCD 1 "t1" none none
      demoEntry demoGameP (by decide) (by decide)⟩

/-- C5 counterexample: in the legacy command layer of `chess_bot.py`, a
start issued on channel 1 — which holds an active game with history
`e4` — is not rejected: it completes and the channel's game afterwards is a
fresh one with an empty history, so the active game was replaced. -/
theorem c5_counterexample_legacy_start_replaces :
    ((legacyDemoGames 1).map (fun g => g.move_history) = some ["e4"]) ∧
    (legacyStart demoE legacyDemoGames 1 none).2
        = LegacyStartOutcome.started ∧
    ((legacyStart demoE legacyDemoGames 1 none).1 1).map
        (fun g => g.move_history) = some [] := by
  refine ⟨by decide, by decide, by decide⟩

/-- C6: stopping a channel's active game reports success, replaces the
channel entry by one whose active slot is empty and whose past-games list
is the old one with that game appended — the appended game carrying
`completed = true` and the completion time as its timestamp — and leaves
every other channel untouched. -/
theorem c6_stop_archives_game {P M : Type} (cd : ChannelMap P M) (ch : Nat)
    (now : String) (e : ChannelEntry P M) (g : Game P M)
    (he : cd ch = some e) (hg : e.current_game = some g) :
    (ChessCog.stop cd ch now).2 = StopOutcome.stopped ∧
    (ChessCog.stop cd ch now).1 ch = some
      { e with current_game := none,
               past_games := some (e.past_games.getD [] ++
                 [{ g with completed := true, timestamp := some now }]) } ∧
    (∀ n, n ≠ ch → (ChessCog.stop cd ch now).1 n = cd n) := by
  unfold ChessCog.stop
  simp only [he]
  simp only [hg]
  refine ⟨by simp, by simp, ?_⟩
  intro n hn
  simp [hn]

/-- C6 witness: stopping the demo channel's active game archives it with
the completion timestamp `t2`. -/
theorem c6_stop_archives_game_witness :
    (demoCD 1 = some demoEntry ∧ demoEntry.current_game = some demoGameP) ∧
    ((ChessCog.stop demoCD 1 "t2").2 = StopOutcome.stopped ∧
      (ChessCog.stop demoCD 1 "t2").1 1 = some
        { demoEntry with
            current_game := none,
            past_games := some (demoEntry.past_games.getD [] ++
              [{ demoGameP with completed := true, timestamp := some "t2" }]) } ∧
      (∀ n, n ≠ 1 → (ChessCog.stop demoCD 1 "t2").1 n = demoCD n)) :=
  ⟨⟨by decide, by decide⟩,
    c6_stop_archives_game demoCD 1 "t2" demoEntry demoGameP (by decide)
      (by decide)⟩

/-- The membership test the commands run (discord member equality, id
based) coincides with membership of the id in the roster's id list. -/
theorem memberB_eq_true_iff (u : Player) (l : List Player) :
    memberB u l = true ↔ u.id ∈ rosterIds l := by
  unfold memberB userEqb rosterIds
  rw [List.any_eq_true]
  simp only [decide_eq_true_eq, List.mem_map]
  constructor
  · rintro ⟨x, hx, hex⟩
    exact ⟨x, hx, hex.symm⟩
  · rintro ⟨x, hx, hex⟩
    exact ⟨x, hx, hex.symm⟩

/-- Removing a member from a roster erases exactly their id from the
roster's id list. -/
theorem rosterIds_removeFirst (u : Player) (l : List Player) :
    rosterIds (removeFirst u l) = (rosterIds l).erase u.id := by
  induction l with
  | nil => rfl
  | cons x xs ih =>
      show rosterIds (if userEqb u x then xs else x :: removeFirst u xs)
        = (x.id :: rosterIds xs).erase u.id
      rw [List.erase_cons]
      by_cases h : u.id = x.id
      · rw [if_pos (by simp [userEqb, h]), if_pos (by simp [h])]
      · rw [if_neg (by simp [userEqb, h]), if_neg (by simp [Ne.symm h])]
        show x.id :: rosterIds (removeFirst u xs)
          = x.id :: (rosterIds xs).erase u.id
        rw [ih]

/-- Roster id lists distribute over appends. -/
theorem rosterIds_append (l₁ l₂ : List Player) :
    rosterIds (l₁ ++ l₂) = rosterIds l₁ ++ rosterIds l₂ :=
  List.map_append _ _ _

/-- Erasing the single occurrence of an element from a duplicate-free list
leaves no occurrence. -/
theorem count_erase_of_nodup_mem {a : Nat} {l : List Nat} (hn : l.Nodup)
    (hm : a ∈ l) : (l.erase a).count a = 0 := by
  have h1 := List.count_erase_self a l
  have h2 : l.count a = 1 := List.count_eq_one_of_mem hn hm
  omega

/-- Moving a user from roster `b` to roster `w` (append to `w`, remove from
`b`) leaves the user exactly once on `w`, not at all on `b`, with both
rosters duplicate-free and disjoint. -/
theorem rosterMove (w b : List Player) (user : Player)
    (hnw : (rosterIds w).Nodup) (hnb : (rosterIds b).Nodup)
    (hdisj : ∀ i, i ∈ rosterIds w → i ∉ rosterIds b)
    (hub : user.id ∈ rosterIds b) :
    (rosterIds (w ++ [user])).count user.id = 1 ∧
    (rosterIds (removeFirst user b)).count user.id = 0 ∧
    (rosterIds (w ++ [user])).Nodup ∧
    (rosterIds (removeFirst user b)).Nodup ∧
    (∀ i, i ∈ rosterIds (w ++ [user]) → i ∉ rosterIds (removeFirst user b)) := by
  have huw : user.id ∉ rosterIds w := fun hh => hdisj user.id hh hub
  refine ⟨?_, ?_, ?_, ?_, ?_⟩
  · rw [rosterIds_append, List.count_append, List.count_eq_zero.mpr huw]
    simp [rosterIds]
  · rw [rosterIds_removeFirst]
    exact count_erase_of_nodup_mem hnb hub
  · rw [rosterIds_append]
    refine List.Nodup.append hnw (by simp [rosterIds]) ?_
    intro i hi hi2
    rw [show rosterIds [user] = [user.id] from rfl, List.mem_singleton] at hi2
    exact huw (hi2 ▸ hi)
  · rw [rosterIds_removeFirst]
    exact hnb.erase user.id
  · intro i hi hic
    rw [rosterIds_removeFirst] at hic
    rw [rosterIds_append] at hi
    rcases List.mem_append.mp hi with hiw | hiu
    · exact hdisj i hiw (List.mem_of_mem_erase hic)
    · rw [show rosterIds [user] = [user.id] from rfl,
        List.mem_singleton] at hiu
      subst hiu
      exact absurd ((hnb.mem_erase_iff).mp hic).1 (by simp)

/-- Appending a user on neither roster to roster `w` keeps both rosters
duplicate-free and disjoint. -/
theorem rosterJoin (w b : List Player) (user : Player)
    (hnw : (rosterIds w).Nodup) (hnb : (rosterIds b).Nodup)
    (hdisj : ∀ i, i ∈ rosterIds w → i ∉ rosterIds b)
    (huw : user.id ∉ rosterIds w) (hub : user.id ∉ rosterIds b) :
    (rosterIds (w ++ [user])).Nodup ∧ (rosterIds b).Nodup ∧
    (∀ i, i ∈ rosterIds (w ++ [user]) → i ∉ rosterIds b) := by
  refine ⟨?_, hnb, ?_⟩
  · rw [rosterIds_append]
    refine List.Nodup.append hnw (by simp [rosterIds]) ?_
    intro i hi hi2
    rw [show rosterIds [user] = [user.id] from rfl, List.mem_singleton] at hi2
    exact huw (hi2 ▸ hi)
  · intro i hi hib
    rw [rosterIds_append] at hi
    rcases List.mem_append.mp hi with hiw | hiu
    · exact hdisj i hiw hib
    · rw [show rosterIds [user] = [user.id] from rfl,
        List.mem_singleton] at hiu
      exact hub (hiu ▸ hib)

/-- C7: with duplicate-free, disjoint rosters, (1) a join by a user already
on either roster is rejected with the channel store returned unchanged,
(2) any game active after a join still has duplicate-free disjoint rosters,
and (3) `assign_player` with `force = true` for a user on the opposite
roster leaves them exactly once on the requested roster, not at all on the
other, with both rosters still duplicate-free and disjoint. -/
theorem c7_rosters_disjoint {P M : Type} (cd : ChannelMap P M) (ch : Nat)
    (user : Player) (color : String) (e : ChannelEntry P M) (g : Game P M)
    (he : cd ch = some e) (hg : e.current_game = some g)
    (hndw : (rosterIds g.white_players).Nodup)
    (hndb : (rosterIds g.black_players).Nodup)
    (hdisj : ∀ i, i ∈ rosterIds g.white_players →
      i ∉ rosterIds g.black_players) :
    ((user.id ∈ rosterIds g.white_players ∨
        user.id ∈ rosterIds g.black_players) →
      (ChessCog.join cd ch user color).1 = cd ∧
      (ChessCog.join cd ch user color).2 ≠ JoinOutcome.joined) ∧
    (∀ e' g', (ChessCog.join cd ch user color).1 ch = some e' →
      e'.current_game = some g' →
      (rosterIds g'.white_players).Nodup ∧
      (rosterIds g'.black_players).Nodup ∧
      (∀ i, i ∈ rosterIds g'.white_players →
        i ∉ rosterIds g'.black_players)) ∧
    (∀ c, ((c = "white" ∧ user.id ∈ rosterIds g.black_players) ∨
           (c = "black" ∧ user.id ∈ rosterIds g.white_players)) →
      ∀ e' g',
        (ChessCog.assign_player cd ch true user c true).1 ch = some e' →
        e'.current_game = some g' →
        (rosterIds (if c = "white" then g'.white_players
          else g'.black_players)).count user.id = 1 ∧
        (rosterIds (if c = "white" then g'.black_players
          else g'.white_players)).count user.id = 0 ∧
        (rosterIds g'.white_players).Nodup ∧
        (rosterIds g'.black_players).Nodup ∧
        (∀ i, i ∈ rosterIds g'.white_players →
          i ∉ rosterIds g'.black_players)) := by
  have hget : getCurrentGame cd ch = some g := by
    unfold getCurrentGame
    rw [he]
    exact hg
  have hdisjSymm : ∀ i, i ∈ rosterIds g.black_players →
      i ∉ rosterIds g.white_players := fun i hib hiw => hdisj i hiw hib
  refine ⟨?_, ?_, ?_⟩
  · intro hmem
    unfold ChessCog.join
    rw [hget]
    dsimp only
    by_cases hval : pyLower color ≠ "white" ∧ pyLower color ≠ "black"
    · rw [if_pos hval]
      exact ⟨rfl, by simp⟩
    · rw [if_neg hval]
      by_cases hw : memberB user g.white_players = true
      · rw [if_pos hw]
        exact ⟨rfl, by simp⟩
      · rw [if_neg hw]
        by_cases hb : memberB user g.black_players = true
        · rw [if_pos hb]
          exact ⟨rfl, by simp⟩
        · exfalso
          rcases hmem with hm | hm
          · exact hw ((memberB_eq_true_iff user g.white_players).mpr hm)
          · exact hb ((memberB_eq_true_iff user g.black_players).mpr hm)
  · intro e' g' h1 h2
    by_cases hval : pyLower color ≠ "white" ∧ pyLower color ≠ "black"
    · have hj : (ChessCog.join cd ch user color).1 = cd := by
        unfold ChessCog.join
        rw [hget]
        dsimp only
        rw [if_pos hval]
      rw [hj, he] at h1
      injection h1 with h1
      subst h1
      rw [hg] at h2
      injection h2 with h2
      subst h2
      exact ⟨hndw, hndb, hdisj⟩
    · by_cases hw : memberB user g.white_players = true
      · have hj : (ChessCog.join cd ch user color).1 = cd := by
          unfold ChessCog.join
          rw [hget]
          dsimp only
          rw [if_neg hval, if_pos hw]
        rw [hj, he] at h1
        injection h1 with h1
        subst h1
        rw [hg] at h2
        injection h2 with h2
        subst h2
        exact ⟨hndw, hndb, hdisj⟩
      · by_cases hb : memberB user g.black_players = true
        · have hj : (ChessCog.join cd ch user color).1 = cd := by
            unfold ChessCog.join
            rw [hget]
            dsimp only
            rw [if_neg hval, if_neg hw, if_pos hb]
          rw [hj, he] at h1
          injection h1 with h1
          subst h1
          rw [hg] at h2
          injection h2 with h2
          subst h2
          exact ⟨hndw, hndb, hdisj⟩
        · have huw : user.id ∉ rosterIds g.white_players :=
            fun hh => hw ((memberB_eq_true_iff user g.white_players).mpr hh)
          have hub : user.id ∉ rosterIds g.black_players :=
            fun hh => hb ((memberB_eq_true_iff user g.black_players).mpr hh)
          by_cases hcw : pyLower color = "white"
          · have hj : (ChessCog.join cd ch user color).1
                = setCurrentGame cd ch
                    { g with white_players := g.white_players ++ [user] } := by
              unfold ChessCog.join
              rw [hget]
              dsimp only
              rw [if_neg hval, if_neg hw, if_neg hb, if_pos hcw]
            rw [hj] at h1
            unfold setCurrentGame at h1
            rw [if_pos rfl, he] at h1
            dsimp only at h1
            injection h1 with h1
            subst h1
            injection h2 with h2
            subst h2
            exact rosterJoin g.white_players g.black_players user hndw hndb
              hdisj huw hub
          · have hj : (ChessCog.join cd ch user color).1
                = setCurrentGame cd ch
                    { g with black_players := g.black_players ++ [user] } := by
              unfold ChessCog.join
              rw [hget]
              dsimp only
              rw [if_neg hval, if_neg hw, if_neg hb, if_neg hcw]
            rw [hj] at h1
            unfold setCurrentGame at h1
            rw [if_pos rfl, he] at h1
            dsimp only at h1
            injection h1 with h1
            subst h1
            injection h2 with h2
            subst h2
            obtain ⟨j1, j2, j3⟩ := rosterJoin g.black_players g.white_players
              user hndb hndw hdisjSymm hub huw
            exact ⟨j2, j1, fun i hiw hib => j3 i hib hiw⟩
  · intro c hc e' g' h1 h2
    rcases hc with ⟨hcv, hub⟩ | ⟨hcv, huw⟩
    · subst hcv
      have huw : user.id ∉ rosterIds g.white_players :=
        fun hh => hdisj user.id hh hub
      have hwb : memberB user g.white_players = false := by
        rw [Bool.eq_false_iff]
        intro hh
        exact huw ((memberB_eq_true_iff user g.white_players).mp hh)
      have hbb : memberB user g.black_players = true :=
        (memberB_eq_true_iff user g.black_players).mpr hub
      have ha : (ChessCog.assign_player cd ch true user "white" true).1
          = setCurrentGame cd ch
              { g with black_players := removeFirst user g.black_players,
                       white_players := g.white_players ++ [user] } := by
        unfold ChessCog.assign_player
        rw [hget]
        dsimp only
        rw [hwb, hbb]
        rfl
      rw [ha] at h1
      unfold setCurrentGame at h1
      rw [if_pos rfl, he] at h1
      dsimp only at h1
      injection h1 with h1
      subst h1
      injection h2 with h2
      subst h2
      obtain ⟨m1, m2, m3, m4, m5⟩ := rosterMove g.white_players
        g.black_players user hndw hndb hdisj hub
      exact ⟨m1, m2, m3, m4, m5⟩
    · subst hcv
      have hub : user.id ∉ rosterIds g.black_players :=
        fun hh => hdisjSymm user.id hh huw
      have hwt : memberB user g.white_players = true :=
        (memberB_eq_true_iff user g.white_players).mpr huw
      have ha : (ChessCog.assign_player cd ch true user "black" true).1
          = setCurrentGame cd ch
              { g with white_players := removeFirst user g.white_players,
                       black_players := g.black_players ++ [user] } := by
        unfold ChessCog.assign_player
        rw [hget]
        dsimp only
        rw [hwt]
        rfl
      rw [ha] at h1
      unfold setCurrentGame at h1
      rw [if_pos rfl, he] at h1
      dsimp only at h1
      injection h1 with h1
      subst h1
      injection h2 with h2
      subst h2
      obtain ⟨m1, m2, m3, m4, m5⟩ := rosterMove g.black_players
        g.white_players user hndb hndw hdisjSymm huw
      exact ⟨m1, m2, m4, m3, fun i hiw hib => m5 i hib hiw⟩

/-- C7 witness: on the demo game (alice on white, bob on black), a join by
alice is rejected with the store unchanged; the post-join state keeps the
roster invariants; and force-assigning alice to black leaves her exactly
once on black and not on white, with disjoint duplicate-free rosters. -/
theorem c7_rosters_disjoint_witness :
    (demoCD 1 = some demoEntry ∧ demoEntry.current_game = some demoGameP ∧
      (rosterIds demoGameP.white_players).Nodup ∧
      (rosterIds demoGameP.black_players).Nodup ∧
      (∀ i, i ∈ rosterIds demoGameP.white_players →
        i ∉ rosterIds demoGameP.black_players)) ∧
    ((ChessCog.join demoCD 1 demoAlice "white").1 = demoCD ∧
      (ChessCog.join demoCD 1 demoAlice "white").2 ≠ JoinOutcome.joined) ∧
    ((rosterIds demoGameP.white_players).Nodup ∧
      (rosterIds demoGameP.black_players).Nodup ∧
      (∀ i, i ∈ rosterIds demoGameP.white_players →
        i ∉ rosterIds demoGameP.black_players)) ∧
    ((rosterIds c7DemoGame.black_players).count demoAlice.id = 1 ∧
      (rosterIds c7DemoGame.white_players).count demoAlice.id = 0 ∧
      (rosterIds c7DemoGame.white_players).Nodup ∧
      (rosterIds c7DemoGame.black_players).Nodup ∧
      (∀ i, i ∈ rosterIds c7DemoGame.white_players →
        i ∉ rosterIds c7DemoGame.black_players)) := by
  have hdp : ∀ i, i ∈ rosterIds demoGameP.white_players →
      i ∉ rosterIds demoGameP.black_players := by
    intro i hi hib
    have hw1 : rosterIds demoGameP.white_players = [1] := by decide
    have hb2 : rosterIds demoGameP.black_players = [2] := by decide
    rw [hw1] at hi
    rw [hb2] at hib
    simp at hi hib
    omega
  have thm := c7_rosters_disjoint demoCD 1 demoAlice "white" demoEntry
    demoGameP (by decide) (by decide) (by decide) (by decide) hdp
  refine ⟨⟨by decide, by decide, by decide, by decide, hdp⟩,
    thm.1 (Or.inl (by decide)), ?_, ?_⟩
  · exact thm.2.1 demoEntry demoGameP (by decide) (by decide)
  · exact thm.2.2 "black" (Or.inr ⟨rfl, by decide⟩)
      { current_game := some c7DemoGame, past_games := some [] } c7DemoGame
      (by decide) (by decide)

/-- ORing bits into a bitboard never clears any bit that was set. -/
theorem nat_or_and_self (x y : Nat) : (x ||| y) &&& x = x := by
  apply Nat.eq_of_testBit_eq
  intro i
  simp only [Nat.testBit_and, Nat.testBit_or]
  cases h : x.testBit i <;> simp [h]

/-- C4 (amended): `reset_castling_rights(color, wing)` grants rather than
clears — it ORs the chosen rook's square bit into the castling-rights
bitboard, so every previously held right is still held (the new bitboard
ANDed with the old one gives back the old one) and no other board field
changes; concretely, on the standard starting position resetting White's
kingside right leaves all four rights reported by
`get_castling_rights`. -/
theorem c4_reset_castling_rights_grants :
    (∀ b c w, ((ChessGame.reset_castling_rights b c w).castling_rights &&&
        b.castling_rights = b.castling_rights) ∧
      (ChessGame.reset_castling_rights b c w).kings = b.kings ∧
      (ChessGame.reset_castling_rights b c w).rooks = b.rooks ∧
      (ChessGame.reset_castling_rights b c w).occWhite = b.occWhite ∧
      (ChessGame.reset_castling_rights b c w).occBlack = b.occBlack ∧
      (ChessGame.reset_castling_rights b c w).promoted = b.promoted ∧
      (ChessGame.reset_castling_rights b c w).chess960 = b.chess960 ∧
      (ChessGame.reset_castling_rights b c w).stackIsEmpty
        = b.stackIsEmpty) ∧
    ChessGame.get_castling_rights
        (ChessGame.reset_castling_rights castlingDemoStandard true "kingside")
      = "Available castling: White O-O, White O-O-O, Black O-O, Black O-O-O" := by
  refine ⟨?_, by decide⟩
  intro b c w
  unfold ChessGame.reset_castling_rights
  dsimp only
  split
  · exact ⟨nat_or_and_self _ _, rfl, rfl, rfl, rfl, rfl, rfl, rfl⟩
  · split
    · exact ⟨nat_or_and_self _ _, rfl, rfl, rfl, rfl, rfl, rfl, rfl⟩
    · exact ⟨Nat.and_self _, rfl, rfl, rfl, rfl, rfl, rfl, rfl⟩

/-- C4 counterexample: on a board with no castling rights at all (white
rook on h1, kings on e1/e8), `reset_castling_rights(WHITE, kingside)`
leaves White WITH the kingside right — the inspection operation reports it
as available — refuting the claim that the side no longer retains the
right after the call: the operation grants rights instead of clearing
them. -/
theorem c4_counterexample_reset_grants_not_clears :
    ChessGame.get_castling_rights castlingDemoNoRights
        = "No castling rights remaining" ∧
    hasKingsideCastlingRights
        (ChessGame.reset_castling_rights castlingDemoNoRights true "kingside")
        true = true ∧
    ChessGame.get_castling_rights
        (ChessGame.reset_castling_rights castlingDemoNoRights true "kingside")
      = "Available castling: White O-O" := by
  refine ⟨by decide, by decide, by decide⟩

end ChessTracker
